import Mathlib

/-!
Verification of `useful_decorators` (`src/decorators.py`) against its
natural-language specification. Each decorator's control flow is shallowly
embedded: a target function is modelled as a map from its invocation index to
the outcome of that invocation, wall-clock readings are abstract rationals,
and Python exceptions are explicit values. Definitions follow the source line
by line; theorems settle the frozen claims.
-/

namespace UsefulDecorators

/-- Metadata of a Python function object, the fields `_repr_func` reads. -/
structure FuncMeta where
  name : String
  filename : String
  firstlineno : Nat
deriving DecidableEq, Repr

/-- The diagnostic identifier built by `_repr_func` (decorators.py lines 13-15). -/
def reprFunc (f : FuncMeta) : String :=
  f.name ++ "() in " ++ f.filename ++ ", line " ++ toString f.firstlineno

/-! ## retry (decorators.py lines 275-299) -/

/-- Outcome of one outer call to a `retry`-wrapped callable: the target's normal
return value, a propagated non-matching exception, or the `ValueError` raised
after the loop exhausts all `n` attempts. -/
inductive RetryOutcome (α E : Type) where
  | value (a : α)
  | raised (e : E)
  | exhausted (msg : String)
deriving DecidableEq, Repr

/-- The `for _ in range(n)` loop of `retry`'s `wrapper` (lines 292-297): `i`
target invocations have been made so far, `fuel` loop iterations remain. `f i`
is the outcome of the target's `i`-th invocation; `catches e` is
`isinstance(e, exception)` for the configured exception class. Returns the
outer outcome and the total number of target invocations. -/
def retryGo (catches : E → Bool) (f : Nat → Except E α) (msg : String) :
    Nat → Nat → RetryOutcome α E × Nat
  | i, 0 => (.exhausted msg, i)
  | i, fuel + 1 =>
    match f i with
    | .ok a => (.value a, i + 1)
    | .error e =>
      if catches e then retryGo catches f msg (i + 1) fuel
      else (.raised e, i + 1)

/-- The message of the `ValueError` raised on line 297. -/
def retryMsg (func : FuncMeta) (n : Nat) : String :=
  reprFunc func ++ " exceeds " ++ toString n ++ " retries"

/-- One outer call of the callable built by `retry(n, exception)` applied to
`func`: run the loop from zero invocations with `n` iterations of budget. -/
def retryWrapper (n : Nat) (catches : E → Bool) (func : FuncMeta)
    (f : Nat → Except E α) : RetryOutcome α E × Nat :=
  retryGo catches f (retryMsg func n) 0 n

theorem retryGo_value (catches : E → Bool) (f : Nat → Except E α) (msg : String)
    (a : α) :
    ∀ (k i fuel : Nat),
      (∀ j, j < k → ∃ e, f (i + j) = .error e ∧ catches e = true) →
      k < fuel → f (i + k) = .ok a →
      retryGo catches f msg i fuel = (.value a, i + k + 1) := by
  intro k
  induction k with
  | zero =>
    intro i fuel _ hfuel hok
    obtain ⟨fu, rfl⟩ := Nat.exists_eq_add_of_lt hfuel
    simp only [Nat.add_zero] at hok
    simp [retryGo, hok]
  | succ k ih =>
    intro i fuel hpre hfuel hok
    obtain ⟨e, he, hc⟩ := hpre 0 (Nat.succ_pos k)
    simp only [Nat.add_zero] at he
    match fuel, hfuel with
    | fu + 1, hfuel =>
      have h1 : retryGo catches f msg i (fu + 1) = retryGo catches f msg (i + 1) fu := by
        simp [retryGo, he, hc]
      rw [h1]
      have h2 : retryGo catches f msg (i + 1) fu = (.value a, (i + 1) + k + 1) := by
        apply ih
        · intro j hj
          have := hpre (j + 1) (Nat.succ_lt_succ hj)
          simpa [Nat.add_assoc, Nat.add_comm 1 j] using this
        · omega
        · have : i + 1 + k = i + (k + 1) := by omega
          rw [this]; exact hok
      rw [h2]
      congr 1
      omega

theorem retryGo_exhaust (catches : E → Bool) (f : Nat → Except E α) (msg : String) :
    ∀ (fuel i : Nat),
      (∀ j, j < fuel → ∃ e, f (i + j) = .error e ∧ catches e = true) →
      retryGo catches f msg i fuel = (.exhausted msg, i + fuel) := by
  intro fuel
  induction fuel with
  | zero => intro i _; simp [retryGo]
  | succ fu ih =>
    intro i hpre
    obtain ⟨e, he, hc⟩ := hpre 0 (Nat.succ_pos fu)
    simp only [Nat.add_zero] at he
    have h1 : retryGo catches f msg i (fu + 1) = retryGo catches f msg (i + 1) fu := by
      simp [retryGo, he, hc]
    rw [h1, ih]
    · congr 1; omega
    · intro j hj
      have := hpre (j + 1) (Nat.succ_lt_succ hj)
      simpa [Nat.add_assoc, Nat.add_comm 1 j] using this

theorem retryGo_raised (catches : E → Bool) (f : Nat → Except E α) (msg : String)
    (e : E) :
    ∀ (k i fuel : Nat),
      (∀ j, j < k → ∃ e', f (i + j) = .error e' ∧ catches e' = true) →
      k < fuel → f (i + k) = .error e → catches e = false →
      retryGo catches f msg i fuel = (.raised e, i + k + 1) := by
  intro k
  induction k with
  | zero =>
    intro i fuel _ hfuel herr hnc
    obtain ⟨fu, rfl⟩ := Nat.exists_eq_add_of_lt hfuel
    simp only [Nat.add_zero] at herr
    simp [retryGo, herr, hnc]
  | succ k ih =>
    intro i fuel hpre hfuel herr hnc
    obtain ⟨e0, he0, hc0⟩ := hpre 0 (Nat.succ_pos k)
    simp only [Nat.add_zero] at he0
    match fuel, hfuel with
    | fu + 1, hfuel =>
      have h1 : retryGo catches f msg i (fu + 1) = retryGo catches f msg (i + 1) fu := by
        simp [retryGo, he0, hc0]
      rw [h1]
      have h2 : retryGo catches f msg (i + 1) fu = (.raised e, (i + 1) + k + 1) := by
        apply ih
        · intro j hj
          have := hpre (j + 1) (Nat.succ_lt_succ hj)
          simpa [Nat.add_assoc, Nat.add_comm 1 j] using this
        · omega
        · have : i + 1 + k = i + (k + 1) := by omega
          rw [this]; exact herr
        · exact hnc
      rw [h2]
      congr 1
      omega

/-- C1: for a target that raises a matching exception on exactly `k < n`
consecutive invocations and then succeeds, the `retry`-wrapped callable returns
the success value after exactly `k + 1` target invocations; for a target that
raises matching exceptions on all of the first `n` invocations, the wrapper
makes exactly `n` invocations and then raises the retries-exhausted
`ValueError` identifying the function and `n`. -/
theorem retry_spec {E α : Type} (n k : Nat) (catches : E → Bool) (func : FuncMeta)
    (f : Nat → Except E α) (a : α) :
    ((∀ i, i < k → ∃ e, f i = .error e ∧ catches e = true) → k < n → f k = .ok a →
      retryWrapper n catches func f = (.value a, k + 1))
    ∧ ((∀ i, i < n → ∃ e, f i = .error e ∧ catches e = true) →
      retryWrapper n catches func f = (.exhausted (retryMsg func n), n)) := by
  constructor
  · intro hpre hkn hok
    have := retryGo_value catches f (retryMsg func n) a k 0 n
      (by simpa using hpre) hkn (by simpa using hok)
    simpa [retryWrapper] using this
  · intro hpre
    have := retryGo_exhaust catches f (retryMsg func n) n 0 (by simpa using hpre)
    simpa [retryWrapper] using this

theorem retry_spec_witness :
    retryWrapper 3 (fun _ : String => true) ⟨"do_sth", "decorators.py", 275⟩
        (fun i => if i = 0 then Except.error "ValueError" else Except.ok 7)
      = (.value 7, 2)
    ∧ retryWrapper 2 (fun _ : String => true) ⟨"do_sth", "decorators.py", 275⟩
        (fun _ => (Except.error "ValueError" : Except String Nat))
      = (.exhausted (retryMsg ⟨"do_sth", "decorators.py", 275⟩ 2), 2) := by
  constructor
  · exact (retry_spec 3 1 (fun _ : String => true) ⟨"do_sth", "decorators.py", 275⟩
      (fun i => if i = 0 then Except.error "ValueError" else Except.ok 7) 7).1
      (by intro i hi
          have : i = 0 := Nat.lt_one_iff.mp hi
          subst this
          exact ⟨"ValueError", rfl, rfl⟩)
      (by omega) (by simp)
  · exact (retry_spec 2 0 (fun _ : String => true) ⟨"do_sth", "decorators.py", 275⟩
      (fun _ => (Except.error "ValueError" : Except String Nat)) 0).2
      (by intro i _; exact ⟨"ValueError", rfl, rfl⟩)

/-- C8: if the target raises an exception the configured class does not catch
(after any number `k` of matching failures), the exception propagates out of
the `retry` wrapper at once: exactly `k + 1` target invocations occur, the
target is not re-invoked, and no retries-exhausted error is produced. -/
theorem retry_nonmatching_spec {E α : Type} (n k : Nat) (catches : E → Bool)
    (func : FuncMeta) (f : Nat → Except E α) (e : E)
    (hpre : ∀ i, i < k → ∃ e', f i = .error e' ∧ catches e' = true)
    (hkn : k < n) (herr : f k = .error e) (hnc : catches e = false) :
    retryWrapper n catches func f = (.raised e, k + 1) := by
  have := retryGo_raised catches f (retryMsg func n) e k 0 n
    (by simpa using hpre) hkn (by simpa using herr) hnc
  simpa [retryWrapper] using this

theorem retry_nonmatching_spec_witness :
    retryWrapper 5 (fun s : String => s == "ValueError") ⟨"do_sth", "decorators.py", 275⟩
        (fun _ => (Except.error "KeyError" : Except String Nat))
      = (.raised "KeyError", 1) :=
  retry_nonmatching_spec 5 0 (fun s : String => s == "ValueError")
    ⟨"do_sth", "decorators.py", 275⟩
    (fun _ => (Except.error "KeyError" : Except String Nat)) "KeyError"
    (by intro i hi; omega) (by omega) rfl (by decide)

/-! ## limit_run (decorators.py lines 302-329) -/

/-- Outcome of one outer call to a `limit_run`-wrapped callable: the target's
return value, or the `RuntimeError` raised when the quota is spent. -/
inductive LimitOutcome (α : Type) where
  | value (a : α)
  | quotaError (msg : String)
deriving DecidableEq, Repr

/-- The message of the `RuntimeError` raised on lines 326-327. -/
def limitMsg (func : FuncMeta) (nv : Int) : String :=
  reprFunc func ++ " exceeds maximum run of " ++ toString nv ++ " times"

/-- One outer call of the wrapper built by `limit_run(nv)` with `nv` not `None`
(lines 318-327): `t` is the current value of the closure cell `times_left`,
`calls` the number of target invocations made so far (indexing `f`). Returns
the outcome, the new `times_left`, and whether the target was invoked. -/
def limitStep (nv : Int) (func : FuncMeta) (f : Nat → α) (t : Int) (calls : Nat) :
    LimitOutcome α × Int × Bool :=
  if t > 0 then (.value (f calls), t - 1, true)
  else (.quotaError (limitMsg func nv), t, false)

/-- A run of `m` successive outer calls of the `limit_run(nv)` wrapper starting
from `times_left = t` with `calls` invocations already made: the outcomes in
order, the final `times_left`, and the final invocation count. -/
def limitRun (nv : Int) (func : FuncMeta) (f : Nat → α) :
    Int → Nat → Nat → List (LimitOutcome α) × Int × Nat
  | t, calls, 0 => ([], t, calls)
  | t, calls, m + 1 =>
    let s := limitStep nv func f t calls
    let r := limitRun nv func f s.2.1 (if s.2.2 then calls + 1 else calls) m
    (s.1 :: r.1, r.2)

/-- `m` successive outer calls of the callable built by `limit_run(n)`, starting
from decoration, which initialises `times_left := n` (line 316). When `n` is
`None` every call just invokes the target (line 320-321). Returns the per-call
outcomes and the total number of target invocations. -/
def limitRunCalls (n : Option Int) (func : FuncMeta) (f : Nat → α) (m : Nat) :
    List (LimitOutcome α) × Nat :=
  match n with
  | none => ((List.range m).map fun i => .value (f i), m)
  | some nv =>
    let r := limitRun nv func f nv 0 m
    (r.1, r.2.2)

/-- Decoration step of `limit_run(n)`: applying `inner` to a function (lines
315-317) only initialises the `times_left` cell to `n` and returns the wrapper.
The source performs no validation of `n`, so decoration never produces an
error; an `Except.error` would model a decoration-time exception. -/
def limitRunDecorate (n : Option Int) : Except String (Option Int) := .ok n

theorem limitRun_succ_of_pos (nv : Int) (func : FuncMeta) (f : Nat → α)
    (t : Int) (calls m : Nat) (ht : t > 0) :
    limitRun nv func f t calls (m + 1) =
      (.value (f calls) :: (limitRun nv func f (t - 1) (calls + 1) m).1,
       (limitRun nv func f (t - 1) (calls + 1) m).2) := by
  simp [limitRun, limitStep, ht]

theorem limitRun_succ_of_nonpos (nv : Int) (func : FuncMeta) (f : Nat → α)
    (t : Int) (calls m : Nat) (ht : ¬ t > 0) :
    limitRun nv func f t calls (m + 1) =
      (.quotaError (limitMsg func nv) :: (limitRun nv func f t calls m).1,
       (limitRun nv func f t calls m).2) := by
  simp [limitRun, limitStep, ht]

theorem limitRun_length (nv : Int) (func : FuncMeta) (f : Nat → α) :
    ∀ (m : Nat) (t : Int) (calls : Nat),
      (limitRun nv func f t calls m).1.length = m := by
  intro m
  induction m with
  | zero => intro t calls; simp [limitRun]
  | succ m ih =>
    intro t calls
    by_cases ht : t > 0
    · rw [limitRun_succ_of_pos nv func f t calls m ht]
      simp [ih]
    · rw [limitRun_succ_of_nonpos nv func f t calls m ht]
      simp [ih]

theorem limitRun_get (nv : Int) (func : FuncMeta) (f : Nat → α) :
    ∀ (m j : Nat) (t : Int) (calls : Nat), j < m →
      ((limitRun nv func f t calls m).1).get? j =
        some (if (j : Int) < t then .value (f (calls + j))
              else .quotaError (limitMsg func nv)) := by
  intro m
  induction m with
  | zero => intro j t calls hj; omega
  | succ m ih =>
    intro j t calls hj
    by_cases ht : t > 0
    · rw [limitRun_succ_of_pos nv func f t calls m ht]
      match j with
      | 0 =>
        have : (0 : Int) < t := by omega
        simp [this]
      | j + 1 =>
        have hj' : j < m := by omega
        rw [List.get?_cons_succ, ih j (t - 1) (calls + 1) hj']
        have harith : calls + 1 + j = calls + (j + 1) := by omega
        rw [harith]
        by_cases hlt : ((j : Int) + 1) < t
        · have h3 : (j : Int) < t - 1 := by omega
          push_cast
          simp [h3, hlt]
        · have h3 : ¬ ((j : Int) < t - 1) := by omega
          push_cast
          simp [h3, hlt]
    · rw [limitRun_succ_of_nonpos nv func f t calls m ht]
      match j with
      | 0 =>
        have : ¬ ((0 : Int) < t) := by omega
        simp [this]
      | j + 1 =>
        have hj' : j < m := by omega
        rw [List.get?_cons_succ, ih j t calls hj']
        have h1 : ¬ ((j : Int) < t) := by omega
        have h2 : ¬ (((j : Int) + 1) < t) := by omega
        push_cast
        simp [h1, h2]

theorem limitRun_count (nv : Int) (func : FuncMeta) (f : Nat → α) :
    ∀ (m : Nat) (t : Int) (calls : Nat),
      (limitRun nv func f t calls m).2.2 = calls + min m t.toNat := by
  intro m
  induction m with
  | zero => intro t calls; simp [limitRun]
  | succ m ih =>
    intro t calls
    by_cases ht : t > 0
    · rw [limitRun_succ_of_pos nv func f t calls m ht]
      simp only [ih]
      omega
    · rw [limitRun_succ_of_nonpos nv func f t calls m ht]
      simp only [ih]
      omega

/-- C3: for a `limit_run` wrapper with bound `nv ≥ 0`, among any `m` outer
calls the `i`-th call (0-indexed, `i < nv`) invokes the target exactly once
and yields its value, while every later call raises the quota-exceeded
`RuntimeError` without invoking the target (total invocations `min m nv`);
moreover the shared `times_left` cell never increases across a call, and once
it is exhausted (`≤ 0`) a call never invokes the target again. -/
theorem limit_run_spec (nv : Int) (func : FuncMeta) (f : Nat → α) (m i : Nat)
    (him : i < m) :
    ((limitRunCalls (some nv) func f m).1.get? i =
      some (if (i : Int) < nv then .value (f i) else .quotaError (limitMsg func nv)))
    ∧ (limitRunCalls (some nv) func f m).2 = min m nv.toNat
    ∧ (∀ (t : Int) (calls : Nat), (limitStep nv func f t calls).2.1 ≤ t)
    ∧ (∀ (t : Int) (calls : Nat), t ≤ 0 →
        limitStep nv func f t calls = (.quotaError (limitMsg func nv), t, false)) := by
  refine ⟨?_, ?_, ?_, ?_⟩
  · have := limitRun_get nv func f m i nv 0 him
    simpa [limitRunCalls] using this
  · have := limitRun_count nv func f m nv 0
    simpa [limitRunCalls] using this
  · intro t calls
    by_cases ht : t > 0
    · simp only [limitStep, ht, if_pos]
      omega
    · simp [limitStep, ht]
  · intro t calls ht
    have : ¬ (t > 0) := by omega
    simp [limitStep, this]

theorem limit_run_spec_witness :
    ((limitRunCalls (some 2) ⟨"do_sth", "decorators.py", 302⟩ (fun i => i) 3).1.get? 2 =
      some (.quotaError (limitMsg ⟨"do_sth", "decorators.py", 302⟩ 2)))
    ∧ (limitRunCalls (some 2) ⟨"do_sth", "decorators.py", 302⟩ (fun i => i) 3).2 = 2 := by
  have h := limit_run_spec 2 ⟨"do_sth", "decorators.py", 302⟩ (fun i => i) 3 2
    (by omega)
  refine ⟨?_, ?_⟩
  · rw [h.1]
    norm_num
  · rw [h.2.1]
    decide

/-- C4 counterexample: applying `limit_run` with bound `0` does not raise any
error at decoration time — decoration succeeds and returns the wrapper — and
the failure instead happens at call time: the very first call raises the
quota-exceeded `RuntimeError` with zero target invocations. -/
theorem limit_run_decorate_counterexample :
    limitRunDecorate (some 0) = .ok (some 0)
    ∧ limitRunCalls (some 0) ⟨"do_sth", "decorators.py", 302⟩ (fun i => i) 1 =
        ([.quotaError (limitMsg ⟨"do_sth", "decorators.py", 302⟩ 0)], 0) := by
  constructor
  · rfl
  · simp [limitRunCalls, limitRun, limitStep]

/-- C4 (amended): applying `limit_run` with a non-positive bound raises no
error at decoration time; instead every subsequent outer call raises the
quota-exceeded `RuntimeError` at call time, and the target is never invoked. -/
theorem limit_run_nonpositive_spec (n : Int) (func : FuncMeta) (f : Nat → α)
    (m : Nat) (hn : n ≤ 0) :
    limitRunDecorate (some n) = .ok (some n)
    ∧ (limitRunCalls (some n) func f m).1 =
        List.replicate m (.quotaError (limitMsg func n))
    ∧ (limitRunCalls (some n) func f m).2 = 0 := by
  refine ⟨rfl, ?_, ?_⟩
  · simp only [limitRunCalls]
    apply List.ext_get?
    intro j
    by_cases hj : j < m
    · rw [limitRun_get n func f m j n 0 hj]
      have h1 : ¬ ((j : Int) < n) := by omega
      rw [List.get?_eq_get (by simpa using hj)]
      simp [h1]
    · have hlen : (limitRun n func f n 0 m).1.length = m :=
        limitRun_length n func f m n 0
      rw [List.get?_eq_none.mpr (by omega), List.get?_eq_none.mpr (by simp; omega)]
  · have := limitRun_count n func f m n 0
    simp only [limitRunCalls]
    rw [this]
    omega

theorem limit_run_nonpositive_spec_witness :
    limitRunDecorate (some (-1)) = .ok (some (-1))
    ∧ (limitRunCalls (some (-1)) ⟨"do_sth", "decorators.py", 302⟩ (fun i => i) 2).1 =
        List.replicate 2 (.quotaError (limitMsg ⟨"do_sth", "decorators.py", 302⟩ (-1)))
    ∧ (limitRunCalls (some (-1)) ⟨"do_sth", "decorators.py", 302⟩ (fun i => i) 2).2 = 0 :=
  limit_run_nonpositive_spec (-1) ⟨"do_sth", "decorators.py", 302⟩ (fun i => i) 2
    (by omega)

/-! ## timing (decorators.py lines 33-104) and the Timing class (lines 107-170) -/

/-- Configuration of `timing` / a `Timing` instance. Wall-clock readings are
abstract rationals; `times` is the repeat count (Python's `range` treats a
negative count like `0`, so a natural number is faithful). -/
structure TimingCfg where
  activate : Bool
  return_time : Bool
  factor : ℚ
  split_before : Bool
  split_after : Bool
  times : Nat
deriving DecidableEq, Repr

/-- What one call of a timing wrapper hands back: the target's (last) result
or the scaled duration — structurally never both. -/
inductive TimingOutput (α : Type) where
  | result (a : α)
  | duration (d : ℚ)
deriving DecidableEq, Repr

/-- Result of applying the `timing` decorator or a `Timing` instance to a
function: either the freshly built wrapper, or — when `activate` is false —
the original function object itself, returned unmodified. -/
inductive TimingDecor where
  | wrapped
  | original
deriving DecidableEq, Repr

/-- The `if activate: return wrap_func else: return func` tail of
`decor_timing` (lines 96-99). -/
def timing_decorate (cfg : TimingCfg) : TimingDecor :=
  if cfg.activate then .wrapped else .original

/-- The `if self.activate: return wrap_func else: return func` tail of
`Timing.__call__` (lines 167-170). -/
def Timing_decorate (cfg : TimingCfg) : TimingDecor :=
  if cfg.activate then .wrapped else .original

/-- One call of the stateless `timing` wrapper `wrap_func` (lines 71-95).
`f i` is the target's `i`-th invocation result, `t1` and `t2` the two clock
readings, `time_run` the nonlocal split counter. The loop runs the target
`times` times, the split prints update the counter, then the wrapper returns
`run_time * factor` when `return_time` and otherwise `ret` — which, when
`times = 0`, was never assigned, so that path raises `UnboundLocalError`.
Returns the outcome, the number of target invocations, and the new counter.
The printed report lines carry no data and are not modelled. -/
def timingWrapFunc (cfg : TimingCfg) (f : Nat → α) (t1 t2 : ℚ) (time_run : Int) :
    Except String (TimingOutput α) × Nat × Int :=
  let run_time := t2 - t1
  let tr1 := if cfg.split_before then time_run + 1 else time_run
  let tr2 := if cfg.split_after then tr1 + 1 else tr1
  if cfg.return_time then (.ok (.duration (run_time * cfg.factor)), cfg.times, tr2)
  else
    match cfg.times with
    | 0 => (.error "UnboundLocalError: local variable ret referenced before assignment",
            0, tr2)
    | t + 1 => (.ok (.result (f t)), t + 1, tr2)

/-- One call of the wrapper built by `Timing.__call__` (lines 144-165). The
body invokes the target `self.times` times, updates the split counter if
`self.split_before`, and then evaluates line 154,
`ti = '' if times==1 else ...`: the name `times` is bound in no enclosing
scope of this `wrap_func` (the instance attribute is `self.times`), so every
call raises `NameError` at that point, after the target invocations and the
optional leading split. -/
def TimingClassWrapFunc (cfg : TimingCfg) (f : Nat → α) (t1 t2 : ℚ)
    (time_run : Int) : Except String (TimingOutput α) × Nat × Int :=
  let tr1 := if cfg.split_before then time_run + 1 else time_run
  (.error "NameError: name times is not defined", cfg.times, tr1)

/-- One call of the undecorated target itself: a single invocation, returning
its value and leaving any counter untouched. -/
def undecoratedCall (f : Nat → α) (time_run : Int) :
    Except String (TimingOutput α) × Nat × Int :=
  (.ok (.result (f 0)), 1, time_run)

/-- One call of the callable returned by the stateless `timing` decorator:
the wrapper when activated, else the original target. -/
def timingCall (cfg : TimingCfg) (f : Nat → α) (t1 t2 : ℚ) (time_run : Int) :
    Except String (TimingOutput α) × Nat × Int :=
  match timing_decorate cfg with
  | .wrapped => timingWrapFunc cfg f t1 t2 time_run
  | .original => undecoratedCall f time_run

/-- One call of the callable returned by a `Timing` instance: its wrapper when
activated, else the original target. -/
def TimingCall (cfg : TimingCfg) (f : Nat → α) (t1 t2 : ℚ) (time_run : Int) :
    Except String (TimingOutput α) × Nat × Int :=
  match Timing_decorate cfg with
  | .wrapped => TimingClassWrapFunc cfg f t1 t2 time_run
  | .original => undecoratedCall f time_run

/-- C5: the claim says a timing wrapper never raises for a target that does
not raise, for both variants; but every call of the wrapper built by an
activated `Timing` instance raises `NameError`, because line 154 reads the
unbound name `times` instead of `self.times`. The target is still invoked
`self.times` times first, then the call fails. -/
theorem Timing_call_raises (α : Type) (rt sb sa : Bool) (factor t1 t2 : ℚ)
    (times : Nat) (f : Nat → α) (tr : Int) :
    (TimingCall ⟨true, rt, factor, sb, sa, times⟩ f t1 t2 tr).1 =
      .error "NameError: name times is not defined"
    ∧ (TimingCall ⟨true, rt, factor, sb, sa, times⟩ f t1 t2 tr).2.1 = times := by
  constructor <;> rfl

/-- C6: with `times = 3` and `activate` true, the stateless `timing` wrapper
invokes the target exactly `3` times and returns the value of the last (third)
invocation, not a collection; with `return_time` set it instead returns the
elapsed duration scaled by `factor`; and the returned payload is the duration
exactly when `return_time` is set, never both values at once. -/
theorem timing_times3_spec (α : Type) (sb sa rt : Bool) (factor t1 t2 : ℚ)
    (f : Nat → α) (tr : Int) :
    ((timingCall ⟨true, false, factor, sb, sa, 3⟩ f t1 t2 tr).1 = .ok (.result (f 2))
      ∧ (timingCall ⟨true, false, factor, sb, sa, 3⟩ f t1 t2 tr).2.1 = 3)
    ∧ ((timingCall ⟨true, true, factor, sb, sa, 3⟩ f t1 t2 tr).1 =
          .ok (.duration ((t2 - t1) * factor))
      ∧ (timingCall ⟨true, true, factor, sb, sa, 3⟩ f t1 t2 tr).2.1 = 3)
    ∧ ((timingCall ⟨true, rt, factor, sb, sa, 3⟩ f t1 t2 tr).1 =
        if rt then .ok (.duration ((t2 - t1) * factor)) else .ok (.result (f 2))) := by
  refine ⟨⟨rfl, rfl⟩, ⟨rfl, rfl⟩, ?_⟩
  cases rt <;> rfl

/-- C9: applying either timing variant with `activate` false returns the
original target function itself: decoration yields `.original`, and a call of
the returned callable behaves exactly like one call of the undecorated
target — same return value, one target invocation, nothing else touched. -/
theorem timing_inactive_spec (α : Type) (rt sb sa : Bool) (factor t1 t2 : ℚ)
    (times : Nat) (f : Nat → α) (tr : Int) :
    timing_decorate ⟨false, rt, factor, sb, sa, times⟩ = .original
    ∧ Timing_decorate ⟨false, rt, factor, sb, sa, times⟩ = .original
    ∧ timingCall ⟨false, rt, factor, sb, sa, times⟩ f t1 t2 tr = undecoratedCall f tr
    ∧ TimingCall ⟨false, rt, factor, sb, sa, times⟩ f t1 t2 tr = undecoratedCall f tr :=
  ⟨rfl, rfl, rfl, rfl⟩

/-! ## pass_except (decorators.py lines 194-219) -/

/-- A Python exception value: the name of its class and whether that class
derives from the builtin `Exception`. Everything raisable derives from
`BaseException`, but `SystemExit`, `KeyboardInterrupt` and `GeneratorExit`
do not derive from `Exception` and escape `except Exception` handlers. -/
structure PyExc where
  clsName : String
  derivesFromException : Bool
deriving DecidableEq, Repr

/-- One call of the `pass_except` wrapper (lines 212-218): the target's value
is returned on success; an exception caught by the `except Exception` clause
is swallowed (after an optional traceback print, which returns no data) and
the wrapper falls off its end, returning `None`; any other exception
propagates. `printExc` is the `print_exception` flag, which only gates the
traceback print. -/
def passExceptWrapper (printExc : Bool) (call : Except PyExc α) :
    Except PyExc (Option α) :=
  match call with
  | .ok a => .ok (some a)
  | .error e => if e.derivesFromException then .ok none else .error e

/-- C7 counterexample: the claim says every exception the target raises is
converted to a silent `None`, without restriction on its kind; but a target
raising `KeyboardInterrupt` — which does not derive from `Exception` — makes
the wrapper propagate that exception instead of returning `None`. -/
theorem pass_except_counterexample :
    passExceptWrapper false (Except.error ⟨"KeyboardInterrupt", false⟩ : Except PyExc Nat)
        = .error ⟨"KeyboardInterrupt", false⟩
    ∧ (Except.error ⟨"KeyboardInterrupt", false⟩ : Except PyExc (Option Nat))
        ≠ .ok none :=
  ⟨rfl, fun h => Except.noConfusion h⟩

/-- C7 (amended): for every exception whose class derives from `Exception` —
the kinds the `except Exception` clause catches — the `pass_except` wrapper
returns `None` and never propagates it, regardless of the `print_exception`
flag; a successful target value passes through unchanged. -/
theorem pass_except_spec (α : Type) (printExc : Bool) (e : PyExc)
    (he : e.derivesFromException = true) :
    passExceptWrapper printExc (Except.error e : Except PyExc α) = .ok none
    ∧ (∀ a : α, passExceptWrapper printExc (.ok a) = .ok (some a)) := by
  constructor
  · simp [passExceptWrapper, he]
  · intro a; rfl

theorem pass_except_spec_witness :
    passExceptWrapper true (Except.error ⟨"ValueError", true⟩ : Except PyExc Nat)
      = .ok none :=
  (pass_except_spec Nat true ⟨"ValueError", true⟩ rfl).1

/-! ## reduce_query (decorators.py lines 365-414) -/

/-- The two-tier cache state owned by one `reduce_query` wrapper: the closure
cells `df` and `df_date`, and the on-disk file — its modification date and
content, or `none` when the file does not exist. Dates are abstract day
numbers, result values an abstract type `D` (a DataFrame in the source). -/
structure CacheState (D : Type) where
  df : Option D
  df_date : Option Nat
  file : Option (Nat × D)
deriving DecidableEq, Repr

/-- Observable effect of one call of a `reduce_query` wrapper: the value
returned (or error raised), the cache state afterwards, and how many target
invocations, file content reads, file writes and modification-time lookups
took place. -/
structure QueryEffect (D : Type) where
  result : Except String D
  state : CacheState D
  invocations : Nat
  fileReads : Nat
  fileWrites : Nat
  mtimeLookups : Nat
deriving Repr

/-- One call of the `reduce_query` wrapper (lines 384-412), literal to the
source. With `always_query` set, line 391 invokes the target once and returns
its value `fval`, touching nothing else. Otherwise the wrapper performs the
`os.path.getmtime` lookup (line 394) and then evaluates
`datetime.datetime.fromtimestamp(...)` (line 395, file present) or
`datetime.datetime.now()` (line 399, file absent): the module imports only
`os`, `time` and `functools`, never `datetime` (nor `pandas`), so both paths
raise `NameError` before any freshness comparison, file read/write, or target
invocation — the freshness logic of lines 399-412 is unreachable. -/
def reduceQueryWrapper (always_query : Bool) (fval : D) (st : CacheState D) :
    QueryEffect D :=
  if always_query then ⟨.ok fval, st, 1, 0, 0, 0⟩
  else ⟨.error "NameError: name datetime is not defined", st, 0, 0, 0, 1⟩

/-- C2: the claim says a call with `always_query` unset invokes the target
exactly when both freshness tiers are stale, once per calendar day; but every
such call raises `NameError` (the module never imports `datetime`) before any
freshness check, with zero target invocations — so two same-day calls invoke
the target zero times, not once, and no later-day refresh ever happens. -/
theorem reduce_query_raises (D : Type) (fval fval2 : D) (st : CacheState D) :
    (reduceQueryWrapper false fval st).result =
      .error "NameError: name datetime is not defined"
    ∧ (reduceQueryWrapper false fval st).invocations = 0
    ∧ (reduceQueryWrapper false fval2 (reduceQueryWrapper false fval st).state).invocations = 0
    ∧ (reduceQueryWrapper false fval st).fileWrites = 0 :=
  ⟨rfl, rfl, rfl, rfl⟩

/-- C10: a call with `always_query` set invokes the target exactly once and
returns its result, and leaves every piece of cache state unchanged: the
in-memory `df` and `df_date` cells keep their values and the on-disk file is
neither read nor written (not even its modification time is consulted). -/
theorem reduce_query_always_spec (D : Type) (fval : D) (st : CacheState D) :
    reduceQueryWrapper true fval st = ⟨.ok fval, st, 1, 0, 0, 0⟩ :=
  rfl

end UsefulDecorators
